import Mathlib

/-!
Verification development for the flat-list movie importer
(src/radarr_flat_import_v2.4.py).  The Python functions that the claims
are about are shallowly embedded as executable Lean definitions:
pure helpers become Lean functions, the mutable globals
(always_continue, always_yes_add, stats, existing_tmdb, the state file)
become explicit fields of a run state that is threaded through, and the
interactive prompts and HTTP calls become oracle fields of an
environment record.  String processing is modelled over `List Char`
with ASCII case folding, matching the ASCII fragment the source
exercises.
-/

namespace Radarr

/-! ### Configuration constants (source lines 64-83) -/

def STRICT_YEAR_MATCH : Bool := true

def INTERACTIVE_ON_ISSUES : Bool := true

def MAX_CHOICES_TO_SHOW : Nat := 8

def CONFIRM_EACH_ADD_DEFAULT : Bool := true

/-! ### Data model

A lookup result from the remote catalog.  The source passes opaque
dicts around; the fields read by the import pipeline are `title`
(read with `m.get("title") or ""`, so a plain `String` here), `year`
(may be absent, hence `Option Int`) and `tmdbId` (absent or present,
and the present value may be `0`, which Python treats as falsy;
hence `Option Int` with `0` kept distinct from `none`). -/

structure Candidate where
  title : String
  year : Option Int
  tmdbId : Option Int
deriving Repr, DecidableEq

/-! ### Line parser (source lines 542-546, `parse_title_year`)

The regex `\((\d{4})\)\s*$` matches exactly when, after removing
trailing whitespace, the line ends with a literal `(dddd)` of four
digits.  `m.start()` is the index of that opening parenthesis, so the
title part is everything before it, stripped on both ends. -/

def trimChars (l : List Char) : List Char :=
  ((l.dropWhile Char.isWhitespace).reverse.dropWhile Char.isWhitespace).reverse

def digitVal (c : Char) : Int := Int.ofNat (c.toNat - 48)

/-- Locates the trailing `(dddd)` group of the regex, returning the
prefix before the opening parenthesis together with the four digit
characters, or `none` when the regex does not match. -/
def yearSuffixSplit (l : List Char) : Option (List Char × Char × Char × Char × Char) :=
  match l.reverse.dropWhile Char.isWhitespace with
  | ')' :: d :: c :: b :: a :: '(' :: rest =>
    if a.isDigit && b.isDigit && c.isDigit && d.isDigit then
      some (rest.reverse, a, b, c, d)
    else none
  | _ => none

def parseCore (l : List Char) : List Char × Option Int :=
  match yearSuffixSplit l with
  | some (pre, a, b, c, d) =>
    (trimChars pre, some (1000 * digitVal a + 100 * digitVal b + 10 * digitVal c + digitVal d))
  | none => (trimChars l, none)

def parse_title_year (s : String) : String × Option Int :=
  match parseCore s.data with
  | (t, y) => (⟨t⟩, y)

/-! ### Title comparison used by the resolution engine (source line 700)

Models `(m.get("title") or "").strip().lower() == title_only.lower()`
with ASCII case folding. -/

def lowerChar (c : Char) : Char :=
  if 65 ≤ c.toNat ∧ c.toNat ≤ 90 then Char.ofNat (c.toNat + 32) else c

def lowerList (l : List Char) : List Char := l.map lowerChar

def titleMatches (titleOnly : String) (m : Candidate) : Bool :=
  lowerList (trimChars m.title.data) == lowerList titleOnly.data

/-! ### Prompt oracles

Each interactive prompt in the source loops until an accepted input
arrives and discards everything else without side effects, so an
interaction is modelled by the first accepted answer.  The ambiguous
selection prompt additionally accepts an out-of-range digit only to
re-prompt forever with no escape on a fixed input, which the run model
represents with a distinguished `blocked` outcome. -/

inductive ContAns where
  | cont
  | abortAns
  | always
deriving Repr, DecidableEq

inductive AmbigAns where
  | skip
  | quit
  | always
  | pick (n : Nat)
deriving Repr, DecidableEq

/-- Source lines 290-302, `prompt_continue`.  Returns the boolean the
caller sees together with the updated `always_continue` flag. -/
def prompt_continue (ans : ContAns) (ac : Bool) : Bool × Bool :=
  if !INTERACTIVE_ON_ISSUES || ac then (true, ac)
  else
    match ans with
    | .cont => (true, ac)
    | .abortAns => (false, ac)
    | .always => (true, true)

/-! ### Resolution engine (source lines 683-731, `choose_from_results`) -/

inductive ChooseOut where
  | picked (c : Candidate)
  | noneSel
  | abortRun
  | blocked
deriving Repr, DecidableEq

structure ChooseEnv where
  yearMissAns : ContAns
  ambigAns : AmbigAns

/-- Strict-year candidate filter, source line 687. -/
def yearFilter (results : List Candidate) (dy : Option Int) : List Candidate :=
  results.filter (fun m => m.year == dy)

/-- Body of `choose_from_results` from the point where `filtered` is
fixed (source lines 696-731): empty-set check, exact-title shortcut,
interactive disambiguation, first-of-list fallback.  Returns the
selection outcome and the updated `always_continue` flag. -/
def chooseCore (env : ChooseEnv) (ac : Bool) (term : String)
    (filtered : List Candidate) (dy : Option Int) : ChooseOut × Bool :=
  match filtered with
  | [] => (.noneSel, ac)
  | c0 :: rest =>
    let titleOnly := (parse_title_year term).1
    let exact_title := (c0 :: rest).filter (titleMatches titleOnly)
    match exact_title, dy with
    | [e], none => (.picked e, ac)
    | _, _ =>
      if INTERACTIVE_ON_ISSUES && !ac && decide (1 < (c0 :: rest).length) then
        match env.ambigAns with
        | .skip => (.noneSel, ac)
        | .quit => (.abortRun, ac)
        | .always => (.picked c0, true)
        | .pick n =>
          let shown := (c0 :: rest).take MAX_CHOICES_TO_SHOW
          if h : n < shown.length then (.picked (shown.get ⟨n, h⟩), ac)
          else (.blocked, ac)
      else (.picked c0, ac)

/-- Full `choose_from_results`: the strict-year filtering and year-miss
fallback of source lines 686-694 followed by `chooseCore`. -/
def choose_from_results (env : ChooseEnv) (ac : Bool) (term : String)
    (results : List Candidate) (dy : Option Int) : ChooseOut × Bool :=
  if dy.isSome && STRICT_YEAR_MATCH then
    let year_matches := yearFilter results dy
    if year_matches.isEmpty then
      let pc := prompt_continue env.yearMissAns ac
      if pc.1 then chooseCore env pc.2 term results dy
      else (.abortRun, pc.2)
    else chooseCore env ac term year_matches dy
  else chooseCore env ac term results dy

/-- Comparison definition for the shortcut-bypass claim, written from
the specification words: identical to `chooseCore` except that the
exact-title shortcut branch is absent. -/
def chooseCoreNoShortcut (env : ChooseEnv) (ac : Bool) (_term : String)
    (filtered : List Candidate) (_dy : Option Int) : ChooseOut × Bool :=
  match filtered with
  | [] => (.noneSel, ac)
  | c0 :: rest =>
    if INTERACTIVE_ON_ISSUES && !ac && decide (1 < (c0 :: rest).length) then
      match env.ambigAns with
      | .skip => (.noneSel, ac)
      | .quit => (.abortRun, ac)
      | .always => (.picked c0, true)
      | .pick n =>
        let shown := (c0 :: rest).take MAX_CHOICES_TO_SHOW
        if h : n < shown.length then (.picked (shown.get ⟨n, h⟩), ac)
        else (.blocked, ac)
    else (.picked c0, ac)

/-- Comparison definition for the shortcut-bypass claim: the outer
`choose_from_results` driving `chooseCoreNoShortcut`. -/
def choose_from_resultsNoShortcut (env : ChooseEnv) (ac : Bool) (term : String)
    (results : List Candidate) (dy : Option Int) : ChooseOut × Bool :=
  if dy.isSome && STRICT_YEAR_MATCH then
    let year_matches := yearFilter results dy
    if year_matches.isEmpty then
      let pc := prompt_continue env.yearMissAns ac
      if pc.1 then chooseCoreNoShortcut env pc.2 term results dy
      else (.abortRun, pc.2)
    else chooseCoreNoShortcut env ac term year_matches dy
  else chooseCoreNoShortcut env ac term results dy

/-! ### Progress tracker (source lines 551-576, `load_state` / `save_state`)

The state file holds JSON.  `JVal` models the parsed JSON values, and
`StateFile` models the three ways the file can present itself to
`load_state`: absent, raising on read or parse, or parsed to a value.
Python `int(x)` applied to a JSON value either produces an integer or
raises; `pyInt` returns `none` for the raising cases. -/

inductive JVal where
  | jnull
  | jbool (b : Bool)
  | jnum (n : Int)
  | jstr (s : String)
  | jarr (l : List JVal)
  | jobj (l : List (String × JVal))

inductive StateFile where
  | missing
  | unreadable
  | parsed (j : JVal)

def jGet (fields : List (String × JVal)) (k : String) : Option JVal :=
  (fields.find? (fun p => p.1 == k)).map Prod.snd

def natOfDigits (l : List Char) : Option Nat :=
  if l ≠ [] ∧ l.all Char.isDigit then
    some (l.foldl (fun acc c => 10 * acc + (c.toNat - 48)) 0)
  else none

/-- Python `int(str)` on the ASCII fragment: surrounding whitespace,
an optional sign, then a nonempty digit run; anything else raises. -/
def pyIntStr (s : String) : Option Int :=
  match trimChars s.data with
  | '-' :: rest => (natOfDigits rest).map (fun n => -(n : Int))
  | '+' :: rest => (natOfDigits rest).map (fun n => (n : Int))
  | rest => (natOfDigits rest).map (fun n => (n : Int))

def pyInt : JVal → Option Int
  | .jnum n => some n
  | .jbool b => some (if b then 1 else 0)
  | .jstr s => pyIntStr s
  | _ => none

/-- Source lines 551-570.  The whole read-and-parse block sits in a
`try` whose handler falls through to the `{"next_index": 0}` default,
and a parsed value that is not a dict also falls through to it.  A
dict that already has `next_index` is returned unvalidated; a dict
with only the legacy `last_index` key is converted with `int(...)`
inside the `try`, so a conversion failure also yields the default. -/
def load_state : StateFile → List (String × JVal)
  | .missing => [("next_index", .jnum 0)]
  | .unreadable => [("next_index", .jnum 0)]
  | .parsed j =>
    match j with
    | .jobj fields =>
      match jGet fields "next_index" with
      | some _ => fields
      | none =>
        match jGet fields "last_index" with
        | some v =>
          match pyInt v with
          | some n => [("next_index", .jnum n)]
          | none => [("next_index", .jnum 0)]
        | none => fields
    | _ => [("next_index", .jnum 0)]

/-- Source line 799: `start_index = int(state.get("next_index", 0))`.
This conversion is outside any handler, so `none` models the run
dying with an uncaught exception. -/
def start_index_of (f : StateFile) : Option Int :=
  pyInt ((jGet (load_state f) "next_index").getD (.jnum 0))

/-! ### Catalog client pieces the driver uses -/

/-- Python truthiness of the `tmdbId` field: absent and `0` are both
falsy. -/
def truthyId : Option Int → Bool
  | none => false
  | some t => t != 0

/-- Source lines 603-605, `get_existing_tmdb_ids`: the set comprehension
`{m["tmdbId"] for m in movies if m.get("tmdbId")}`, modelled as a list
read up to membership. -/
def get_existing_tmdb_ids (movies : List Candidate) : List Int :=
  movies.filterMap (fun m => if truthyId m.tmdbId then m.tmdbId else none)

/-! ### Import driver (source lines 736-905, `main`) -/

/-- Runtime flags set by CLI switches and prompts: `--dry-run`,
`--auto-add`, `--yes-all`, `--max-add N`. -/
structure Config where
  dryRun : Bool
  autoAdd : Bool
  yesAll : Bool
  maxAdd : Option Nat

inductive ConfirmAns where
  | yes
  | no
  | always
deriving Repr, DecidableEq

/-- Source lines 304-328, `prompt_confirm_add`.  Returns the boolean
the caller sees and the updated `always_yes_add` flag. -/
def prompt_confirm_add (cfg : Config) (ans : ConfirmAns) (ayd : Bool) : Bool × Bool :=
  if cfg.autoAdd then (true, ayd)
  else if ayd then (true, ayd)
  else
    match ans with
    | .yes => (true, cfg.yesAll)
    | .no => (false, ayd)
    | .always => (true, true)

/-- External world of one run: the lookup endpoint (`none` models a
raised transport error, caught by the per-line handler), the status
code returned by the add endpoint, and the first accepted operator
answer for each prompt site, indexed by line number. -/
structure Env where
  lookup : String → Option (List Candidate)
  addStatus : Nat → Nat
  yearMissAns : Nat → ContAns
  missAns : Nat → ContAns
  skipAns : Nat → ContAns
  errAns : Nat → ContAns
  apiErrAns : Nat → ContAns
  failAns : Nat → ContAns
  ambigAns : Nat → AmbigAns
  confirmAns : Nat → ConfirmAns

/-- The mutable run state of `main`: the duplicate index
`existing_tmdb`, the `stats` counters, the sticky prompt flags, the
last value handed to `save_state`, the dry-run report list, and the
list of tmdb ids for which the add endpoint was actually called. -/
structure RunState where
  existing : List Int
  processed : Nat
  would_add : Nat
  duplicates : Nat
  misses : Nat
  errors : Nat
  skipped : Nat
  added : Nat
  alwaysContinue : Bool
  alwaysYesAdd : Bool
  saved : Option Nat
  dryrunHits : List (String × Option Int × Int)
  addCalls : List Int
deriving Repr, DecidableEq

/-- Outcome of one line body: the loop continues, or `fatal(...)` /
`sys.exit` fired mid-line, or an interactive prompt never received an
accepted answer. -/
inductive LineRes where
  | ok (s : RunState)
  | fatal (s : RunState)
  | blocked (s : RunState)
deriving Repr, DecidableEq

def LineRes.state : LineRes → RunState
  | .ok s => s
  | .fatal s => s
  | .blocked s => s

/-- Body of one loop iteration from the `try:` at source line 827
through line 897 (lookup, resolve, dedupe-check, confirm, add, and
the per-path bookkeeping).  `s` is the state after the iteration
prelude (save and `processed` increment) has run. -/
def processLine (env : Env) (cfg : Config) (idx : Nat) (term : String)
    (s : RunState) : LineRes :=
  match env.lookup term with
  | none =>
    let s1 := {s with errors := s.errors + 1}
    let pc := prompt_continue (env.failAns idx) s1.alwaysContinue
    let s2 := {s1 with alwaysContinue := pc.2}
    if pc.1 then .ok s2 else .fatal s2
  | some results =>
    if results.isEmpty then
      let s1 := {s with misses := s.misses + 1}
      let pc := prompt_continue (env.missAns idx) s1.alwaysContinue
      let s2 := {s1 with alwaysContinue := pc.2}
      if pc.1 then .ok s2 else .fatal s2
    else
      let ch := choose_from_results ⟨env.yearMissAns idx, env.ambigAns idx⟩
        s.alwaysContinue term results (parse_title_year term).2
      let s1 := {s with alwaysContinue := ch.2}
      match ch.1 with
      | .abortRun => .fatal s1
      | .blocked => .blocked s1
      | .noneSel =>
        let s2 := {s1 with skipped := s1.skipped + 1}
        let pc := prompt_continue (env.skipAns idx) s2.alwaysContinue
        let s3 := {s2 with alwaysContinue := pc.2}
        if pc.1 then .ok s3 else .fatal s3
      | .picked sel =>
        if !truthyId sel.tmdbId then
          let s2 := {s1 with errors := s1.errors + 1}
          let pc := prompt_continue (env.errAns idx) s2.alwaysContinue
          let s3 := {s2 with alwaysContinue := pc.2}
          if pc.1 then .ok s3 else .fatal s3
        else
          let t := sel.tmdbId.getD 0
          if t ∈ s1.existing then
            .ok {s1 with duplicates := s1.duplicates + 1}
          else if cfg.dryRun then
            .ok {s1 with would_add := s1.would_add + 1,
                         dryrunHits := s1.dryrunHits ++ [(sel.title, sel.year, t)],
                         existing := s1.existing ++ [t]}
          else
            let cf :=
              if CONFIRM_EACH_ADD_DEFAULT then
                prompt_confirm_add cfg (env.confirmAns idx) s1.alwaysYesAdd
              else (true, s1.alwaysYesAdd)
            let s2 := {s1 with alwaysYesAdd := cf.2}
            if !cf.1 then
              .ok {s2 with skipped := s2.skipped + 1}
            else
              let s3 := {s2 with addCalls := s2.addCalls ++ [t]}
              let st := env.addStatus idx
              if st == 200 || st == 201 then
                .ok {s3 with would_add := s3.would_add + 1, added := s3.added + 1,
                             existing := s3.existing ++ [t]}
              else
                let s4 := {s3 with errors := s3.errors + 1}
                let pc := prompt_continue (env.apiErrAns idx) s4.alwaysContinue
                let s5 := {s4 with alwaysContinue := pc.2}
                if pc.1 then .ok s5 else .fatal s5

/-- Observable micro-events of the driver loop, in execution order:
a line is dispatched (`movies[idx]` fetched), `save_state` runs inside
the loop, a line body completes, the completion `save_state` at source
line 902 runs. -/
inductive Ev where
  | dispatched (i : Nat)
  | savedLoop (n : Nat)
  | handled (i : Nat)
  | savedFinal (n : Nat)
deriving Repr, DecidableEq

inductive RunEnd where
  | completed
  | fatalExit
  | stuck
deriving Repr, DecidableEq

/-- Source line 823: `(not DRY_RUN) and (MAX_ADD is not None) and
(stats["added"] >= MAX_ADD)`. -/
def capReached (cfg : Config) (added : Nat) : Bool :=
  !cfg.dryRun &&
    (match cfg.maxAdd with
     | some n => decide (n ≤ added)
     | none => false)

/-- Source lines 813-902: the loop over the remaining lines, each
carried with its absolute index, followed by the unconditional
completion save.  The prelude of each iteration saves `idx + 1` and
bumps `processed` before the `--max-add` cap check; a cap break leaves
the loop and still reaches the completion save, while `fatal` paths
terminate the process without it. -/
def runLines (env : Env) (cfg : Config) (total : Nat) :
    List (Nat × String) → RunState → RunState × List Ev × RunEnd
  | [], s => ({s with saved := some total}, [.savedFinal total], .completed)
  | (idx, term) :: rest, s =>
    let s1 := {s with saved := some (idx + 1), processed := s.processed + 1}
    if capReached cfg s1.added then
      ({s1 with saved := some total},
       [.dispatched idx, .savedLoop (idx + 1), .savedFinal total], .completed)
    else
      match processLine env cfg idx term s1 with
      | .ok s2 =>
        let r := runLines env cfg total rest s2
        (r.1, .dispatched idx :: .savedLoop (idx + 1) :: .handled idx :: r.2.1, r.2.2)
      | .fatal s2 => (s2, [.dispatched idx, .savedLoop (idx + 1)], .fatalExit)
      | .blocked s2 => (s2, [.dispatched idx, .savedLoop (idx + 1)], .stuck)

def enumFrom : Nat → List String → List (Nat × String)
  | _, [] => []
  | k, t :: ts => (k, t) :: enumFrom (k + 1) ts

/-- Fresh run state: counters reset (source lines 792-795), sticky
flags clear, duplicate index seeded from the library. -/
def initState (seeded : List Int) : RunState :=
  { existing := seeded, processed := 0, would_add := 0, duplicates := 0,
    misses := 0, errors := 0, skipped := 0, added := 0,
    alwaysContinue := false, alwaysYesAdd := false, saved := none,
    dryrunHits := [], addCalls := [] }

/-- One import pass: `for idx in range(start_index, len(movies))`
followed by the completion save. -/
def runImport (env : Env) (cfg : Config) (movies : List String)
    (startIndex : Nat) (seeded : List Int) : RunState × List Ev × RunEnd :=
  runLines env cfg movies.length (enumFrom startIndex (movies.drop startIndex))
    (initState seeded)

/-! ### General list helpers -/

lemma dropWhile_append_of_all {p : Char → Bool} {l₁ : List Char} (l₂ : List Char)
    (h : ∀ x ∈ l₁, p x) : (l₁ ++ l₂).dropWhile p = l₂.dropWhile p := by
  induction l₁ with
  | nil => simp
  | cons a l ih =>
    have ha : p a := h a (List.mem_cons_self a l)
    simp only [List.cons_append, List.dropWhile_cons, ha, if_true]
    exact ih (fun x hx => h x (List.mem_cons_of_mem a hx))

lemma prefix_cons_cases {α : Type} {p : List α} {a : α} {l : List α} (h : p <+: a :: l) :
    p = [] ∨ ∃ q, p = a :: q ∧ q <+: l := by
  cases p with
  | nil => exact Or.inl rfl
  | cons x q =>
    rw [List.cons_prefix_cons] at h
    exact Or.inr ⟨q, by rw [h.1], h.2⟩

/-! ### Characterization of the year-suffix regex -/

lemma yearSuffixSplit_eq_some_iff {l pre : List Char} {a b c d : Char} :
    yearSuffixSplit l = some (pre, a, b, c, d) ↔
      ((a.isDigit ∧ b.isDigit ∧ c.isDigit ∧ d.isDigit) ∧
        ∃ ws, (∀ x ∈ ws, x.isWhitespace) ∧
          l = pre ++ '(' :: a :: b :: c :: d :: ')' :: ws) := by
  constructor
  · intro h
    unfold yearSuffixSplit at h
    split at h
    case _ d' c' b' a' rest heq =>
      split at h
      case isTrue hdig =>
        simp only [Option.some.injEq, Prod.mk.injEq] at h
        obtain ⟨hpre, hA, hB, hC, hD⟩ := h
        subst hpre
        rw [hA, hB, hC, hD] at heq hdig
        simp only [Bool.and_eq_true] at hdig
        have hwsmem : ∀ x ∈ (l.reverse.takeWhile Char.isWhitespace).reverse, x.isWhitespace :=
          fun x hx => List.mem_takeWhile_imp (List.mem_reverse.mp hx)
        have hl : l = (l.reverse.takeWhile Char.isWhitespace ++
            (')' :: d :: c :: b :: a :: '(' :: rest)).reverse := by
          rw [← heq, List.takeWhile_append_dropWhile, List.reverse_reverse]
        refine ⟨⟨hdig.1.1.1, hdig.1.1.2, hdig.1.2, hdig.2⟩,
          (l.reverse.takeWhile Char.isWhitespace).reverse, hwsmem, ?_⟩
        generalize l.reverse.takeWhile Char.isWhitespace = W at hl ⊢
        rw [hl]
        simp
      case isFalse => exact absurd h (by simp)
    case _ => exact absurd h (by simp)
  · rintro ⟨⟨ha, hb, hc, hd⟩, ws, hws, rfl⟩
    have hscrut : ((pre ++ '(' :: a :: b :: c :: d :: ')' :: ws).reverse.dropWhile
          Char.isWhitespace)
        = ')' :: d :: c :: b :: a :: '(' :: pre.reverse := by
      have h1 : (pre ++ '(' :: a :: b :: c :: d :: ')' :: ws).reverse
          = ws.reverse ++ (')' :: d :: c :: b :: a :: '(' :: pre.reverse) := by
        simp
      rw [h1, dropWhile_append_of_all _ (fun x hx => hws x (List.mem_reverse.mp hx))]
      simp [List.dropWhile_cons]
    unfold yearSuffixSplit
    rw [hscrut]
    simp [ha, hb, hc, hd]

/-! ### Resolution-engine lemmas -/

lemma chooseCore_noShortcut_of_some (env : ChooseEnv) (ac : Bool) (term : String)
    (f : List Candidate) (y : Int) :
    chooseCore env ac term f (some y) = chooseCoreNoShortcut env ac term f (some y) := by
  cases f with
  | nil => rfl
  | cons c0 rest =>
    simp only [chooseCore, chooseCoreNoShortcut]
    split
    · rename_i e heq1 heq2
      exact Option.noConfusion heq2
    · rfl

lemma chooseCore_noShortcut_of_len_ne (env : ChooseEnv) (ac : Bool) (term : String)
    (f : List Candidate)
    (h : (f.filter (titleMatches (parse_title_year term).1)).length ≠ 1) :
    chooseCore env ac term f none = chooseCoreNoShortcut env ac term f none := by
  cases f with
  | nil => rfl
  | cons c0 rest =>
    simp only [chooseCore, chooseCoreNoShortcut]
    split
    · rename_i e heq1 heq2
      rw [heq1] at h
      simp at h
    · rfl

lemma chooseCore_shortcut (env : ChooseEnv) (ac : Bool) (term : String)
    (f : List Candidate) (c : Candidate)
    (h : f.filter (titleMatches (parse_title_year term).1) = [c]) :
    chooseCore env ac term f none = (.picked c, ac) := by
  cases f with
  | nil => simp at h
  | cons c0 rest =>
    simp only [chooseCore]
    rw [h]

lemma chooseCore_ambig_reduce (env : ChooseEnv) (ac : Bool) (term : String)
    (c0 : Candidate) (rest : List Candidate) (dy : Option Int)
    (h : ¬(((c0 :: rest).filter (titleMatches (parse_title_year term).1)).length = 1
            ∧ dy = none)) :
    chooseCore env ac term (c0 :: rest) dy =
      if INTERACTIVE_ON_ISSUES && !ac && decide (1 < (c0 :: rest).length) then
        match env.ambigAns with
        | .skip => (.noneSel, ac)
        | .quit => (.abortRun, ac)
        | .always => (.picked c0, true)
        | .pick n =>
          if hn : n < ((c0 :: rest).take MAX_CHOICES_TO_SHOW).length then
            (.picked (((c0 :: rest).take MAX_CHOICES_TO_SHOW).get ⟨n, hn⟩), ac)
          else (.blocked, ac)
      else (.picked c0, ac) := by
  simp only [chooseCore]
  split
  · rename_i xt cand heq2
    exact absurd ⟨by rw [heq2]; rfl, rfl⟩ h
  · rfl

lemma chooseCore_ambig_interactive (env : ChooseEnv) (term : String)
    (c0 c1 : Candidate) (rest : List Candidate) (dy : Option Int)
    (h : ¬(((c0 :: c1 :: rest).filter (titleMatches (parse_title_year term).1)).length = 1
            ∧ dy = none)) :
    chooseCore env false term (c0 :: c1 :: rest) dy =
      match env.ambigAns with
      | .skip => (.noneSel, false)
      | .quit => (.abortRun, false)
      | .always => (.picked c0, true)
      | .pick n =>
        if hn : n < ((c0 :: c1 :: rest).take MAX_CHOICES_TO_SHOW).length then
          (.picked (((c0 :: c1 :: rest).take MAX_CHOICES_TO_SHOW).get ⟨n, hn⟩), false)
        else (.blocked, false) := by
  have hcond : (INTERACTIVE_ON_ISSUES && !false
      && decide (1 < (c0 :: c1 :: rest).length)) = true := by
    simp [INTERACTIVE_ON_ISSUES]
  rw [chooseCore_ambig_reduce env false term c0 (c1 :: rest) dy h]
  simp only [hcond, if_true]

lemma chooseCore_auto_first (env : ChooseEnv) (term : String)
    (d0 : Candidate) (drest : List Candidate) (dy : Option Int)
    (h : ¬(((d0 :: drest).filter (titleMatches (parse_title_year term).1)).length = 1
            ∧ dy = none)) :
    chooseCore env true term (d0 :: drest) dy = (.picked d0, true) := by
  have hcond : (INTERACTIVE_ON_ISSUES && !true
      && decide (1 < (d0 :: drest).length)) = false := by
    simp
  rw [chooseCore_ambig_reduce env true term d0 drest dy h]
  simp [hcond]

/-! ### Import-driver lemmas -/

lemma processLine_missing_id (env : Env) (cfg : Config) (idx : Nat) (term : String)
    (s : RunState) (results : List Candidate) (sel : Candidate) (ac2 : Bool)
    (hl : env.lookup term = some results) (hne : results ≠ [])
    (hch : choose_from_results ⟨env.yearMissAns idx, env.ambigAns idx⟩
        s.alwaysContinue term results (parse_title_year term).2 = (.picked sel, ac2))
    (hid : sel.tmdbId = some 0) :
    (processLine env cfg idx term s).state.errors = s.errors + 1
    ∧ (processLine env cfg idx term s).state.addCalls = s.addCalls
    ∧ (processLine env cfg idx term s).state.existing = s.existing
    ∧ (processLine env cfg idx term s).state.added = s.added := by
  have hE : results.isEmpty = false := by
    cases results
    · exact absurd rfl hne
    · rfl
  unfold processLine
  rw [hl]
  simp only [hE, Bool.false_eq_true, if_false, hch, hid]
  cases hpc : (prompt_continue (env.errAns idx) ac2).1 <;>
    simp [truthyId, LineRes.state, hpc]

lemma processLine_duplicate (env : Env) (cfg : Config) (idx : Nat) (term : String)
    (s : RunState) (results : List Candidate) (sel : Candidate) (ac2 : Bool) (t : Int)
    (hl : env.lookup term = some results) (hne : results ≠ [])
    (hch : choose_from_results ⟨env.yearMissAns idx, env.ambigAns idx⟩
        s.alwaysContinue term results (parse_title_year term).2 = (.picked sel, ac2))
    (hid : sel.tmdbId = some t) (ht0 : t ≠ 0) (hmem : t ∈ s.existing) :
    processLine env cfg idx term s
      = .ok {s with alwaysContinue := ac2, duplicates := s.duplicates + 1} := by
  have hE : results.isEmpty = false := by
    cases results
    · exact absurd rfl hne
    · rfl
  unfold processLine
  rw [hl]
  simp [hE, hch, hid, truthyId, ht0, hmem]

lemma processLine_existing_mono (env : Env) (cfg : Config) (idx : Nat) (term : String)
    (s : RunState) (t : Int) (h : t ∈ s.existing) :
    t ∈ (processLine env cfg idx term s).state.existing := by
  cases hl : env.lookup term with
  | none =>
    simp only [processLine, hl]
    split <;> exact h
  | some results =>
    cases hE : results.isEmpty with
    | true =>
      simp only [processLine, hl, hE, if_true]
      split <;> exact h
    | false =>
      simp only [processLine, hl, hE, Bool.false_eq_true, if_false]
      cases hch : (choose_from_results ⟨env.yearMissAns idx, env.ambigAns idx⟩
          s.alwaysContinue term results (parse_title_year term).2).1 <;>
        (repeat' split) <;>
        first
          | exact h
          | exact List.mem_append_left _ h

lemma runLines_existing_mono (env : Env) (cfg : Config) (total : Nat)
    (rest : List (Nat × String)) (s : RunState) (t : Int) (h : t ∈ s.existing) :
    t ∈ (runLines env cfg total rest s).1.existing := by
  induction rest generalizing s with
  | nil => simpa [runLines] using h
  | cons hd tl ih =>
    obtain ⟨idx, term⟩ := hd
    unfold runLines
    simp only []
    split
    · exact h
    · split
      · rename_i s2 heq
        exact ih s2 (by
          have := processLine_existing_mono env cfg idx term
            {s with saved := some (idx + 1), processed := s.processed + 1} t h
          rwa [heq] at this)
      · rename_i s2 heq
        have := processLine_existing_mono env cfg idx term
          {s with saved := some (idx + 1), processed := s.processed + 1} t h
        rwa [heq] at this
      · rename_i s2 heq
        have := processLine_existing_mono env cfg idx term
          {s with saved := some (idx + 1), processed := s.processed + 1} t h
        rwa [heq] at this

/-! ### Trace structure of the driver loop -/

lemma runLines_trace_shape (env : Env) (cfg : Config) (total : Nat) (k : Nat)
    (term : String) (l' : List String) (s : RunState) :
    (runLines env cfg total (enumFrom k (term :: l')) s).2.1
        = [Ev.dispatched k, Ev.savedLoop (k + 1), Ev.savedFinal total]
    ∨ (∃ s2, (runLines env cfg total (enumFrom k (term :: l')) s).2.1
        = Ev.dispatched k :: Ev.savedLoop (k + 1) :: Ev.handled k ::
            (runLines env cfg total (enumFrom (k + 1) l') s2).2.1)
    ∨ (runLines env cfg total (enumFrom k (term :: l')) s).2.1
        = [Ev.dispatched k, Ev.savedLoop (k + 1)] := by
  simp only [enumFrom, runLines]
  split
  · exact Or.inl rfl
  · split
    · rename_i s2 heq
      exact Or.inr (Or.inl ⟨s2, rfl⟩)
    · exact Or.inr (Or.inr rfl)
    · exact Or.inr (Or.inr rfl)

lemma runLines_trace_inv (env : Env) (cfg : Config) (total : Nat) :
    ∀ (l : List String) (k : Nat) (s : RunState),
      (∀ p, p <+: (runLines env cfg total (enumFrom k l) s).2.1 →
        ∀ n, Ev.savedLoop n ∈ p →
          ((∀ i, k ≤ i → i + 1 < n → Ev.handled i ∈ p) ∧ Ev.dispatched (n - 1) ∈ p))
      ∧ (∀ i, Ev.dispatched i ∈ (runLines env cfg total (enumFrom k l) s).2.1 → k ≤ i) := by
  intro l
  induction l with
  | nil =>
    intro k s
    constructor
    · intro p hp n hn
      have hmem := hp.subset hn
      simp [runLines, enumFrom] at hmem
    · intro i hi
      simp [runLines, enumFrom] at hi
  | cons term l' ih =>
    intro k s
    rcases runLines_trace_shape env cfg total k term l' s with htr | ⟨s2, htr⟩ | htr
    · rw [htr]
      constructor
      · intro p hp n hn
        have hn' : n = k + 1 := by
          have := hp.subset hn
          simp at this
          exact this
        subst hn'
        refine ⟨fun i hki hlt => absurd hlt (by omega), ?_⟩
        rcases prefix_cons_cases hp with rfl | ⟨q, rfl, hq⟩
        · simp at hn
        · simp [Nat.add_sub_cancel]
      · intro i hi
        simp at hi
        omega
    · rw [htr]
      constructor
      · intro p hp n hn
        rcases prefix_cons_cases hp with rfl | ⟨q, rfl, hq⟩
        · simp at hn
        · rcases prefix_cons_cases hq with rfl | ⟨q2, rfl, hq2⟩
          · simp at hn
          · rcases prefix_cons_cases hq2 with rfl | ⟨q3, rfl, hq3⟩
            · simp at hn
              subst hn
              exact ⟨fun i hki hlt => absurd hlt (by omega), by simp [Nat.add_sub_cancel]⟩
            · simp only [List.mem_cons] at hn
              rcases hn with hn | hn | hn | hn
              · exact absurd hn (by simp)
              · have hn' : n = k + 1 := by simpa using hn
                subst hn'
                exact ⟨fun i hki hlt => absurd hlt (by omega), by simp [Nat.add_sub_cancel]⟩
              · exact absurd hn (by simp)
              · obtain ⟨ha, hb⟩ := (ih (k + 1) s2).1 q3 hq3 n hn
                refine ⟨fun i hki hlt => ?_, by simp [hb]⟩
                rcases Nat.eq_or_lt_of_le hki with rfl | hklt
                · simp
                · have : Ev.handled i ∈ q3 := ha i (by omega) hlt
                  simp [this]
      · intro i hi
        simp only [List.mem_cons] at hi
        rcases hi with hi | hi | hi | hi
        · simp at hi; omega
        · exact absurd hi (by simp)
        · exact absurd hi (by simp)
        · have := (ih (k + 1) s2).2 i hi
          omega
    · rw [htr]
      constructor
      · intro p hp n hn
        have hn' : n = k + 1 := by
          have := hp.subset hn
          simp at this
          exact this
        subst hn'
        refine ⟨fun i hki hlt => absurd hlt (by omega), ?_⟩
        rcases prefix_cons_cases hp with rfl | ⟨q, rfl, hq⟩
        · simp at hn
        · simp [Nat.add_sub_cancel]
      · intro i hi
        simp at hi
        omega

/-! ### Concrete fixtures used by the claim theorems and witnesses -/

def candA : Candidate := ⟨"A", some 2000, some 1⟩

def candB : Candidate := ⟨"B", some 2000, some 2⟩

def candC : Candidate := ⟨"C", some 2000, some 3⟩

def candD : Candidate := ⟨"D", some 2000, some 4⟩

def candZ : Candidate := ⟨"Z0", some 2000, some 0⟩

def candAlien : Candidate := ⟨"Alien", some 1979, some 348⟩

def cFoo2001 : Candidate := ⟨"Foo", some 2001, some 11⟩

def cFoo1999 : Candidate := ⟨"Foo", some 1999, some 22⟩

/-- A concrete remote catalog and operator: each of the four terms
resolves to its own fresh id, `Z0` resolves to a candidate whose
tmdbId is `0`, every add succeeds and every prompt is answered with
its continue-style default. -/
def envFour : Env :=
  { lookup := fun t =>
      if t = "A" then some [candA]
      else if t = "B" then some [candB]
      else if t = "C" then some [candC]
      else if t = "D" then some [candD]
      else if t = "Z0" then some [candZ]
      else some [],
    addStatus := fun _ => 201,
    yearMissAns := fun _ => .cont,
    missAns := fun _ => .cont,
    skipAns := fun _ => .cont,
    errAns := fun _ => .cont,
    apiErrAns := fun _ => .cont,
    failAns := fun _ => .cont,
    ambigAns := fun _ => .skip,
    confirmAns := fun _ => .yes }

/-- Live mode, `--auto-add`, `--max-add 2`. -/
def cfgCap2 : Config := ⟨false, true, false, some 2⟩

/-- Live mode, `--auto-add`, no cap. -/
def cfgLive : Config := ⟨false, true, false, none⟩

/-! ### Claim C1 -/

/-- Claim C1 (code bug): the claim says that once the number of
successful adds reaches the configured cap the run halts with the
persisted resume state pointing at the first unprocessed line.  On the
code, in live mode with `--max-add 2` and four lines that each resolve
to a fresh id: the first two lines are added, line 2 is dispatched and
`save_state(3)` runs before the cap check, the cap check breaks the
loop before line 2 is handled, and then the completion
`save_state(len(movies))` at source line 902 runs anyway, so the
persisted state ends at 4 (all lines marked processed) instead of 2
(the first unprocessed line).  The next run would skip lines 2 and 3
entirely. -/
theorem claim_C1_cap_resume_lost :
    (runImport envFour cfgCap2 ["A", "B", "C", "D"] 0 []).1.added = 2
    ∧ (runImport envFour cfgCap2 ["A", "B", "C", "D"] 0 []).1.saved = some 4
    ∧ (runImport envFour cfgCap2 ["A", "B", "C", "D"] 0 []).1.saved ≠ some 2
    ∧ Ev.dispatched 2 ∈ (runImport envFour cfgCap2 ["A", "B", "C", "D"] 0 []).2.1
    ∧ Ev.handled 2 ∉ (runImport envFour cfgCap2 ["A", "B", "C", "D"] 0 []).2.1
    ∧ Ev.dispatched 3 ∉ (runImport envFour cfgCap2 ["A", "B", "C", "D"] 0 []).2.1
    ∧ Ev.savedFinal 4 ∈ (runImport envFour cfgCap2 ["A", "B", "C", "D"] 0 []).2.1
    ∧ (runImport envFour cfgCap2 ["A", "B", "C", "D"] 0 []).2.2 = RunEnd.completed := by
  decide

/-! ### Claim C2 -/

/-- Claim C2 counterexample: the stated invariant, that at every moment
every line with index strictly below the persisted `next_index` has
been fully handled, fails mid-line.  On a one-line live run the trace
begins with the dispatch of line 0 followed by `save_state(1)`; that
two-event prefix is a reachable interruption point at which the
persisted value is 1 while line 0 has not been handled. -/
theorem claim_C2_counterexample :
    ((runImport envFour cfgLive ["A"] 0 []).2.1).take 2
        = [Ev.dispatched 0, Ev.savedLoop 1]
    ∧ ((runImport envFour cfgLive ["A"] 0 []).2.1).take 2
        <+: (runImport envFour cfgLive ["A"] 0 []).2.1
    ∧ Ev.savedLoop 1 ∈ ((runImport envFour cfgLive ["A"] 0 []).2.1).take 2
    ∧ Ev.handled 0 ∉ ((runImport envFour cfgLive ["A"] 0 []).2.1).take 2 :=
  ⟨by decide, ⟨_, List.take_append_drop 2 _⟩, by decide, by decide⟩

/-- Claim C2 (amended): `next_index` is persisted after its line is
dispatched but before that line is handled.  At every prefix of the
execution trace, a per-line save of value `n` implies that every line
of this run with index below `n - 1` has already been handled and that
line `n - 1` has been dispatched; and a run resumed from saved index
`k` never dispatches (hence never reprocesses) a line with index below
`k`. -/
theorem claim_C2_amended (env : Env) (cfg : Config) (movies : List String)
    (k : Nat) (seeded : List Int) :
    (∀ p, p <+: (runImport env cfg movies k seeded).2.1 →
      ∀ n, Ev.savedLoop n ∈ p →
        ((∀ i, k ≤ i → i + 1 < n → Ev.handled i ∈ p) ∧ Ev.dispatched (n - 1) ∈ p))
    ∧ (∀ i, Ev.dispatched i ∈ (runImport env cfg movies k seeded).2.1 → k ≤ i) :=
  runLines_trace_inv env cfg movies.length (movies.drop k) k (initState seeded)

/-- Witness for the amended claim C2 on a concrete two-line run. -/
theorem claim_C2_amended_witness :
    Ev.handled 0 ∈ ((runImport envFour cfgLive ["A", "B"] 0 []).2.1).take 5 := by
  have h := (claim_C2_amended envFour cfgLive ["A", "B"] 0 []).1
    (((runImport envFour cfgLive ["A", "B"] 0 []).2.1).take 5)
    ⟨_, List.take_append_drop 5 _⟩ 2 (by decide)
  exact h.1 0 (Nat.le.refl) (by decide)

/-! ### Claim C3 -/

/-- Claim C3: with candidates `[{year 2001}, {year 1999}]` and desired
year 1999 under the strict-year policy, the year filter keeps exactly
the 1999 candidate, resolution continues on that singleton filtered
set, the exact-title computation over that singleton selects it, and
the resolution result is that candidate. -/
theorem claim_C3_year_strict_singleton (env : ChooseEnv) (ac : Bool) :
    yearFilter [cFoo2001, cFoo1999] (some 1999) = [cFoo1999]
    ∧ choose_from_results env ac "Foo (1999)" [cFoo2001, cFoo1999] (some 1999)
        = chooseCore env ac "Foo (1999)" [cFoo1999] (some 1999)
    ∧ [cFoo1999].filter (titleMatches (parse_title_year "Foo (1999)").1) = [cFoo1999]
    ∧ choose_from_results env ac "Foo (1999)" [cFoo2001, cFoo1999] (some 1999)
        = (.picked cFoo1999, ac) := by
  refine ⟨by decide, ?_, by decide, ?_⟩
  · cases ac <;> rfl
  · cases ac <;> rfl

/-- Witness for claim C3 at a concrete operator environment. -/
theorem claim_C3_witness :
    choose_from_results ⟨ContAns.cont, AmbigAns.skip⟩ false "Foo (1999)"
        [cFoo2001, cFoo1999] (some 1999)
      = (.picked cFoo1999, false) :=
  (claim_C3_year_strict_singleton ⟨ContAns.cont, AmbigAns.skip⟩ false).2.2.2

/-! ### Claim C4 -/

/-- Claim C4: the exact-match shortcut fires exactly when exactly one
candidate title matches the parsed title case-insensitively and no
desired year was given.  With no desired year and a unique match the
engine returns that candidate immediately; whenever a desired year is
present, or the match is not unique, the engine behaves identically to
the same algorithm with the shortcut branch removed. -/
theorem claim_C4_exact_shortcut_iff :
    (∀ (env : ChooseEnv) (ac : Bool) (term : String) (results : List Candidate)
        (c : Candidate),
        results.filter (titleMatches (parse_title_year term).1) = [c] →
        choose_from_results env ac term results none = (.picked c, ac))
    ∧ (∀ (env : ChooseEnv) (ac : Bool) (term : String) (results : List Candidate) (y : Int),
        choose_from_results env ac term results (some y)
          = choose_from_resultsNoShortcut env ac term results (some y))
    ∧ (∀ (env : ChooseEnv) (ac : Bool) (term : String) (results : List Candidate),
        (results.filter (titleMatches (parse_title_year term).1)).length ≠ 1 →
        choose_from_results env ac term results none
          = choose_from_resultsNoShortcut env ac term results none) := by
  refine ⟨?_, ?_, ?_⟩
  · intro env ac term results c h
    exact chooseCore_shortcut env ac term results c h
  · intro env ac term results y
    unfold choose_from_results choose_from_resultsNoShortcut
    simp only [chooseCore_noShortcut_of_some]
  · intro env ac term results h
    exact chooseCore_noShortcut_of_len_ne env ac term results h

/-- Witness for claim C4: a unique exact title match with no year is
returned immediately. -/
theorem claim_C4_witness :
    choose_from_results ⟨ContAns.cont, AmbigAns.skip⟩ false "Alien" [candAlien] none
      = (.picked candAlien, false) :=
  claim_C4_exact_shortcut_iff.1 ⟨ContAns.cont, AmbigAns.skip⟩ false "Alien"
    [candAlien] candAlien (by decide)

/-! ### Claim C5 -/

/-- Claim C5 counterexample: a state file holding the well-formed JSON
object `{"next_index": "x"}` is malformed stored state, yet loading it
is fatal: `load_state` returns the dict unvalidated and the uncaught
`int("x")` conversion at source line 799 raises, so the run dies
instead of starting from zero. -/
theorem claim_C5_counterexample :
    start_index_of (.parsed (.jobj [("next_index", .jstr "x")])) = none := by
  decide

/-- Claim C5 (amended): loading yields start index 0 whenever the state
file is missing, unreadable or unparseable, parses to a non-object
value, or parses to an object carrying neither `next_index` nor
`last_index`; and an object whose `next_index` is an integer yields
that integer.  The one remaining case, an object whose `next_index`
holds a non-integer-convertible value, is fatal
(`claim_C5_counterexample`). -/
theorem claim_C5_amended :
    start_index_of .missing = some 0
    ∧ start_index_of .unreadable = some 0
    ∧ start_index_of (.parsed .jnull) = some 0
    ∧ (∀ n, start_index_of (.parsed (.jnum n)) = some 0)
    ∧ (∀ s, start_index_of (.parsed (.jstr s)) = some 0)
    ∧ (∀ l, start_index_of (.parsed (.jarr l)) = some 0)
    ∧ (∀ fields, jGet fields "next_index" = none → jGet fields "last_index" = none →
        start_index_of (.parsed (.jobj fields)) = some 0)
    ∧ (∀ fields n, jGet fields "next_index" = some (.jnum n) →
        start_index_of (.parsed (.jobj fields)) = some n) := by
  refine ⟨rfl, rfl, rfl, fun n => rfl, fun s => rfl, fun l => rfl, ?_, ?_⟩
  · intro fields h1 h2
    simp [start_index_of, load_state, h1, h2, pyInt]
  · intro fields n h
    simp [start_index_of, load_state, h, pyInt]

/-- Witness for the amended claim C5 on a concrete object lacking both
keys. -/
theorem claim_C5_amended_witness :
    start_index_of (.parsed (.jobj [("foo", .jnum 3)])) = some 0 :=
  claim_C5_amended.2.2.2.2.2.2.1 [("foo", .jnum 3)] rfl rfl

/-! ### Claim C6 -/

/-- Claim C6: the duplicate index never shrinks during a run (any id
present in the state at any point is still present after the rest of
the loop), and a line whose resolution picks a candidate with a
truthy tmdbId already in the index is classified as a duplicate: the
duplicate counter increments and nothing else changes, so no add call
is issued and the id is never added again. -/
theorem claim_C6_duplicate_monotone :
    (∀ (env : Env) (cfg : Config) (total : Nat) (rest : List (Nat × String))
        (s : RunState) (t : Int),
        t ∈ s.existing → t ∈ (runLines env cfg total rest s).1.existing)
    ∧ (∀ (env : Env) (cfg : Config) (idx : Nat) (term : String) (s : RunState)
        (results : List Candidate) (sel : Candidate) (ac2 : Bool) (t : Int),
        env.lookup term = some results → results ≠ [] →
        choose_from_results ⟨env.yearMissAns idx, env.ambigAns idx⟩
            s.alwaysContinue term results (parse_title_year term).2 = (.picked sel, ac2) →
        sel.tmdbId = some t → t ≠ 0 → t ∈ s.existing →
        processLine env cfg idx term s
          = .ok {s with alwaysContinue := ac2, duplicates := s.duplicates + 1}) :=
  ⟨fun env cfg total rest s t h => runLines_existing_mono env cfg total rest s t h,
   fun env cfg idx term s results sel ac2 t hl hne hch hid ht0 hmem =>
     processLine_duplicate env cfg idx term s results sel ac2 t hl hne hch hid ht0 hmem⟩

/-- Witness for claim C6: a seeded id survives a one-line run, and a
line resolving to that id is recorded as a duplicate only. -/
theorem claim_C6_witness :
    (1 : Int) ∈ (runLines envFour cfgLive 1 [(0, "A")] (initState [1])).1.existing
    ∧ processLine envFour cfgLive 0 "A" (initState [1])
        = .ok {initState [1] with alwaysContinue := false, duplicates := 1} := by
  refine ⟨claim_C6_duplicate_monotone.1 envFour cfgLive 1 [(0, "A")]
      (initState [1]) 1 (by decide), ?_⟩
  exact claim_C6_duplicate_monotone.2 envFour cfgLive 0 "A" (initState [1])
    [candA] candA false 1 (by decide) (by decide) (by decide) rfl (by decide) (by decide)

/-! ### Claim C7 -/

/-- Claim C7: with at least two candidates, interactive issues enabled
and the sticky always-continue flag clear, the engine presents at most
8 candidates, in received order (a prefix of the filtered list); an
empty answer returns SKIP, an in-range digit returns the shown
candidate at that index, quit aborts, and an always answer returns the
first shown candidate, sets the sticky flag, and every later
ambiguous resolution with the flag set auto-picks its first
candidate. -/
theorem claim_C7_disambiguation (env : ChooseEnv) (term : String)
    (c0 c1 : Candidate) (rest : List Candidate) (dy : Option Int)
    (hns : ¬(((c0 :: c1 :: rest).filter (titleMatches (parse_title_year term).1)).length = 1
            ∧ dy = none)) :
    ((c0 :: c1 :: rest).take MAX_CHOICES_TO_SHOW).length ≤ 8
    ∧ (c0 :: c1 :: rest).take MAX_CHOICES_TO_SHOW <+: (c0 :: c1 :: rest)
    ∧ (env.ambigAns = .skip →
        chooseCore env false term (c0 :: c1 :: rest) dy = (.noneSel, false))
    ∧ (∀ n (hn : n < ((c0 :: c1 :: rest).take MAX_CHOICES_TO_SHOW).length),
        env.ambigAns = .pick n →
        chooseCore env false term (c0 :: c1 :: rest) dy
          = (.picked (((c0 :: c1 :: rest).take MAX_CHOICES_TO_SHOW).get ⟨n, hn⟩), false))
    ∧ (env.ambigAns = .quit →
        chooseCore env false term (c0 :: c1 :: rest) dy = (.abortRun, false))
    ∧ (env.ambigAns = .always →
        chooseCore env false term (c0 :: c1 :: rest) dy = (.picked c0, true)
        ∧ ∀ (env2 : ChooseEnv) (term2 : String) (d0 : Candidate)
            (drest : List Candidate) (dy2 : Option Int),
            ¬(((d0 :: drest).filter (titleMatches (parse_title_year term2).1)).length = 1
               ∧ dy2 = none) →
            chooseCore env2 true term2 (d0 :: drest) dy2 = (.picked d0, true)) := by
  have hred := chooseCore_ambig_interactive env term c0 c1 rest dy hns
  refine ⟨List.length_take_le _ _, ⟨_, List.take_append_drop _ _⟩, ?_, ?_, ?_, ?_⟩
  · intro ha; rw [hred, ha]
  · intro n hn ha; rw [hred, ha]; exact dif_pos hn
  · intro ha; rw [hred, ha]
  · intro ha
    refine ⟨by rw [hred, ha], ?_⟩
    intro env2 term2 d0 drest dy2 h2
    exact chooseCore_auto_first env2 term2 d0 drest dy2 h2

/-- Witness for claim C7: picking index 1 returns the second shown
candidate. -/
theorem claim_C7_witness :
    chooseCore ⟨ContAns.cont, AmbigAns.pick 1⟩ false "Zed" [candA, candB] none
      = (.picked candB, false) := by
  have h := claim_C7_disambiguation ⟨ContAns.cont, AmbigAns.pick 1⟩ "Zed"
    candA candB [] none (by decide)
  exact h.2.2.2.1 1 (by decide) rfl

/-! ### Claim C8 -/

/-- Claim C8: when a desired year is given under the strict-year policy
and no candidate carries that year, the engine reports the year-miss
to the continue-or-abort policy; a continue answer makes it fall back
to the full unfiltered candidate list, an abort answer returns
ABORT. -/
theorem claim_C8_year_miss_policy (env : ChooseEnv) (ac : Bool) (term : String)
    (results : List Candidate) (y : Int)
    (hy : ∀ m ∈ results, m.year ≠ some y) :
    ((prompt_continue env.yearMissAns ac).1 = false →
      choose_from_results env ac term results (some y)
        = (.abortRun, (prompt_continue env.yearMissAns ac).2))
    ∧ ((prompt_continue env.yearMissAns ac).1 = true →
      choose_from_results env ac term results (some y)
        = chooseCore env (prompt_continue env.yearMissAns ac).2 term results (some y)) := by
  have hf : yearFilter results (some y) = [] := by
    simp only [yearFilter, List.filter_eq_nil_iff, beq_iff_eq]
    exact hy
  constructor
  · intro h1
    unfold choose_from_results
    rw [hf]
    simp [STRICT_YEAR_MATCH, h1]
  · intro h1
    unfold choose_from_results
    rw [hf]
    simp [STRICT_YEAR_MATCH, h1]

/-- Witness for claim C8: an abort answer at a year-miss aborts the
resolution. -/
theorem claim_C8_witness :
    choose_from_results ⟨ContAns.abortAns, AmbigAns.skip⟩ false "Alien"
        [candAlien] (some 1980)
      = (.abortRun, false) :=
  (claim_C8_year_miss_policy ⟨ContAns.abortAns, AmbigAns.skip⟩ false "Alien"
    [candAlien] 1980 (by decide)).1 (by decide)

/-! ### Claim C9 -/

/-- Claim C9: parsing is total, and for every character sequence,
either the line decomposes as a prefix followed by a parenthesized
four-digit group and trailing whitespace, in which case parsing
returns the trimmed prefix together with the number read from the four
digits, or no such decomposition exists and parsing returns the
trimmed line with no year; in particular parsing `Foo Bar (1999)`
yields `(Foo Bar, 1999)` and parsing `Foo Bar` yields no year. -/
theorem claim_C9_parse_title_year :
    (∀ l : List Char,
      (∃ pre a b c d ws, (Char.isDigit a ∧ Char.isDigit b ∧ Char.isDigit c ∧ Char.isDigit d) ∧
          (∀ x ∈ ws, Char.isWhitespace x) ∧
          l = pre ++ '(' :: a :: b :: c :: d :: ')' :: ws ∧
          parseCore l = (trimChars pre,
            some (1000 * digitVal a + 100 * digitVal b + 10 * digitVal c + digitVal d)))
      ∨ ((¬ ∃ pre a b c d ws,
            (Char.isDigit a ∧ Char.isDigit b ∧ Char.isDigit c ∧ Char.isDigit d) ∧
            (∀ x ∈ ws, Char.isWhitespace x) ∧
            l = pre ++ '(' :: a :: b :: c :: d :: ')' :: ws) ∧
          parseCore l = (trimChars l, none)))
    ∧ parse_title_year "Foo Bar (1999)" = ("Foo Bar", some 1999)
    ∧ parse_title_year "Foo Bar" = ("Foo Bar", none) := by
  refine ⟨?_, by decide, by decide⟩
  intro l
  rcases hs : yearSuffixSplit l with _ | ⟨pre, a, b, c, d⟩
  · right
    constructor
    · rintro ⟨pre, a, b, c, d, ws, hdig, hws, rfl⟩
      have hcontra : yearSuffixSplit (pre ++ '(' :: a :: b :: c :: d :: ')' :: ws)
          = some (pre, a, b, c, d) :=
        yearSuffixSplit_eq_some_iff.mpr ⟨hdig, ws, hws, rfl⟩
      rw [hs] at hcontra
      exact Option.noConfusion hcontra
    · simp [parseCore, hs]
  · left
    obtain ⟨hdig, ws, hws, heq⟩ := yearSuffixSplit_eq_some_iff.mp hs
    exact ⟨pre, a, b, c, d, ws, hdig, hws, heq, by simp [parseCore, hs]⟩

/-- Witness for claim C9 at the concrete plain-title input. -/
theorem claim_C9_witness : parse_title_year "Foo Bar" = ("Foo Bar", none) :=
  claim_C9_parse_title_year.2.2

/-! ### Claim C10 -/

/-- Claim C10: library entries with a falsy tmdbId (absent or 0) are
excluded when seeding the duplicate index, and a resolved candidate
whose tmdbId is 0 takes the missing-id path: the error counter
increments and no add call, index insertion, or add count change
occurs. -/
theorem claim_C10_falsy_id :
    (∀ (lib : List Candidate) (t : Int),
        t ∈ get_existing_tmdb_ids lib ↔ (t ≠ 0 ∧ ∃ m ∈ lib, m.tmdbId = some t))
    ∧ (∀ (env : Env) (cfg : Config) (idx : Nat) (term : String) (s : RunState)
        (results : List Candidate) (sel : Candidate) (ac2 : Bool),
        env.lookup term = some results → results ≠ [] →
        choose_from_results ⟨env.yearMissAns idx, env.ambigAns idx⟩
            s.alwaysContinue term results (parse_title_year term).2 = (.picked sel, ac2) →
        sel.tmdbId = some 0 →
        (processLine env cfg idx term s).state.errors = s.errors + 1
        ∧ (processLine env cfg idx term s).state.addCalls = s.addCalls
        ∧ (processLine env cfg idx term s).state.existing = s.existing
        ∧ (processLine env cfg idx term s).state.added = s.added) := by
  constructor
  · intro lib t
    simp only [get_existing_tmdb_ids, List.mem_filterMap]
    constructor
    · rintro ⟨m, hm, hf⟩
      rcases htm : m.tmdbId with _ | v
      · rw [htm] at hf; simp [truthyId] at hf
      · rw [htm] at hf
        by_cases hv : v = 0
        · subst hv; simp [truthyId] at hf
        · simp only [truthyId, bne_iff_ne, ne_eq, hv, not_false_eq_true, if_true,
            Option.some.injEq] at hf
          subst hf
          exact ⟨hv, m, hm, htm⟩
    · rintro ⟨ht0, m, hm, htm⟩
      refine ⟨m, hm, ?_⟩
      rw [htm]
      simp [truthyId, ht0]
  · intro env cfg idx term s results sel ac2 hl hne hch hid
    exact processLine_missing_id env cfg idx term s results sel ac2 hl hne hch hid

/-- Witness for claim C10: seeding keeps id 5 and drops the zero id,
and a line resolving to the zero-id candidate is recorded as an error
with no add call. -/
theorem claim_C10_witness :
    (5 : Int) ∈ get_existing_tmdb_ids [⟨"X", none, some 5⟩, ⟨"Y", none, some 0⟩]
    ∧ (0 : Int) ∉ get_existing_tmdb_ids [⟨"X", none, some 5⟩, ⟨"Y", none, some 0⟩]
    ∧ (processLine envFour cfgLive 0 "Z0" (initState [])).state.errors = 1
    ∧ (processLine envFour cfgLive 0 "Z0" (initState [])).state.addCalls = [] := by
  refine ⟨?_, ?_, ?_, ?_⟩
  · exact (claim_C10_falsy_id.1 _ 5).mpr ⟨by decide, ⟨"X", none, some 5⟩, by decide, rfl⟩
  · intro hmem
    exact absurd rfl ((claim_C10_falsy_id.1 _ 0).mp hmem).1
  · exact (claim_C10_falsy_id.2 envFour cfgLive 0 "Z0" (initState []) [candZ] candZ false
      (by decide) (by decide) (by decide) rfl).1
  · exact (claim_C10_falsy_id.2 envFour cfgLive 0 "Z0" (initState []) [candZ] candZ false
      (by decide) (by decide) (by decide) rfl).2.1

end Radarr
